import Mathlib

/-!
Verification development for the CrewX staffing application.

The data model follows src/types.ts and src/supabase_setup.sql; the data
access facade follows the db module in src/unnamed/part_000; the bookkeeping
handlers follow src/App.tsx, src/unnamed/part_000 and src/unnamed/part_001.
Monetary amounts (DECIMAL(12,2) columns, JS numbers) are modelled as
integers (the concrete amounts in the claims are integral); integer
counters as integers.  JS string methods (trim, toUpperCase, toLowerCase)
are modelled by structurally recursive functions on the character list so
that concrete instances evaluate in the kernel.
-/

namespace CrewX

/-- Role enum from src/types.ts. -/
inductive UserRole where
  | ADMIN
  | WORKER
deriving DecidableEq, Repr

/-- Job status enum from src/types.ts. -/
inductive JobStatus where
  | OPEN
  | CLOSED
  | COMPLETED
deriving DecidableEq, Repr

/-- Withdrawal status enum from src/types.ts. -/
inductive WithdrawalStatus where
  | PENDING
  | APPROVED
  | REJECTED
deriving DecidableEq, Repr

/-- Frontend User record from src/types.ts.  Optional fields are Options.
The TypeScript interface has phone as optional, but mapUser always produces
a string for it; we keep it as an Option so that presence is observable. -/
structure User where
  id : String
  name : String
  email : String
  password : Option String
  phone : Option String
  role : UserRole
  balance : Int
  qrCode : Option String
  age : Option Int
  experience : Option Int
deriving DecidableEq, Repr

/-- Frontend Job record from src/types.ts. -/
structure Job where
  id : String
  title : String
  date : String
  time : String
  location : String
  pay : Int
  maxWorkers : Int
  enrolledCount : Int
  status : JobStatus
deriving DecidableEq, Repr

/-- Enrollment record from src/types.ts. -/
structure Enrollment where
  id : String
  userId : String
  jobId : String
  enrolledAt : String
deriving DecidableEq, Repr

/-- WithdrawalRequest record from src/types.ts. -/
structure WithdrawalRequest where
  id : String
  userId : String
  amount : Int
  status : WithdrawalStatus
  createdAt : String
deriving DecidableEq, Repr

/-- Notification record from src/types.ts (fields used by the claims). -/
structure AppNotification where
  id : String
  user_id : String
  title : String
  message : String
  is_read : Bool
deriving DecidableEq, Repr

/-- Row of the public.workers table from src/supabase_setup.sql.  Nullable
columns (password, phone, role, balance, qr_code, age, experience) are
Options; role and balance have column defaults applied by the read path. -/
structure WorkerRow where
  id : String
  name : String
  email : String
  password : Option String
  phone : Option String
  role : Option String
  balance : Option Int
  qr_code : Option String
  age : Option Int
  experience : Option Int
deriving DecidableEq, Repr

/-- Executable model of JS String.prototype.toUpperCase (ASCII). -/
def toUpperStr (s : String) : String := ⟨s.data.map Char.toUpper⟩

/-- Executable model of JS String.prototype.toLowerCase (ASCII). -/
def toLowerStr (s : String) : String := ⟨s.data.map Char.toLower⟩

/-- Executable model of JS String.prototype.trim: drop whitespace from both
ends. -/
def trimStr (s : String) : String :=
  ⟨((s.data.dropWhile Char.isWhitespace).reverse.dropWhile Char.isWhitespace).reverse⟩

/-- Email normalisation used by saveUser, updateUser and getUserByEmail in
the db module: email.toLowerCase().trim(). -/
def normEmail (e : String) : String := trimStr (toLowerStr e)

/-- Serialisation of a UserRole as stored in the role column. -/
def roleStr (r : UserRole) : String :=
  match r with
  | .ADMIN => "ADMIN"
  | .WORKER => "WORKER"

/-- Read path for the role column, from mapUser in the db module:
(u.role?.toUpperCase() || UserRole.WORKER).  A missing role defaults to
WORKER; the CHECK constraint limits stored values to ADMIN or WORKER. -/
def parseRole (o : Option String) : UserRole :=
  match o with
  | none => .WORKER
  | some s => if toUpperStr s = "ADMIN" then .ADMIN else .WORKER

/-- mapUser from the db module in src/unnamed/part_000 (lines 35-47):
maps a workers row to a frontend User.  phone uses (u.phone || ""), so a
missing phone becomes the empty string; balance uses (u.balance ?? 0);
password, qr_code, age and experience pass through unchanged. -/
def mapUser (u : WorkerRow) : User :=
  { id := u.id
    name := u.name
    email := u.email
    password := u.password
    phone := some (u.phone.getD "")
    role := parseRole u.role
    balance := u.balance.getD 0
    qrCode := u.qr_code
    age := u.age
    experience := u.experience }

/-- Write path of saveUser in the db module (lines 76-94): builds the row,
normalising the email; keys whose value is undefined are deleted before the
upsert, so unset optional fields are stored as NULL. -/
def saveUserRow (user : User) : WorkerRow :=
  { id := user.id
    name := user.name
    email := normEmail user.email
    password := user.password
    phone := user.phone
    role := some (roleStr user.role)
    balance := some user.balance
    qr_code := user.qrCode
    age := user.age
    experience := user.experience }

/-- Partial\<User\> argument of db.updateUser (lines 95-109): only fields
that are present are written. -/
structure UserUpdates where
  name : Option String := none
  email : Option String := none
  phone : Option String := none
  balance : Option Int := none
  qrCode : Option String := none
  age : Option Int := none
  experience : Option Int := none
  role : Option UserRole := none
  password : Option String := none
deriving DecidableEq, Repr

/-- Column-level effect of db.updateUser on one workers row: each field
present in the updates is written (email normalised, role serialised);
every absent field, and the id, keeps its previous value. -/
def applyUserUpdates (up : UserUpdates) (r : WorkerRow) : WorkerRow :=
  { id := r.id
    name := up.name.getD r.name
    email := match up.email with | some e => normEmail e | none => r.email
    password := match up.password with | some p => some p | none => r.password
    phone := match up.phone with | some p => some p | none => r.phone
    role := match up.role with | some ro => some (roleStr ro) | none => r.role
    balance := match up.balance with | some b => some b | none => r.balance
    qr_code := match up.qrCode with | some q => some q | none => r.qr_code
    age := match up.age with | some a => some a | none => r.age
    experience := match up.experience with | some x => some x | none => r.experience }

/-- The remote data store: the five tables of src/supabase_setup.sql that
the claims touch (admin_auth is not needed). -/
structure DB where
  workers : List WorkerRow
  jobs : List Job
  enrollments : List Enrollment
  withdrawals : List WithdrawalRequest
  notifications : List AppNotification
deriving DecidableEq, Repr

def emptyDB : DB :=
  { workers := [], jobs := [], enrollments := [], withdrawals := [], notifications := [] }

/-- db.getUsers: select * from workers, mapped through mapUser. -/
def getUsers (db : DB) : List User := db.workers.map mapUser

/-- db.getUserByEmail (lines 67-75): select the row whose email column
equals the normalised query, mapped through mapUser; absence gives null. -/
def getUserByEmail (email : String) (db : DB) : Option User :=
  (db.workers.find? (fun r => r.email == normEmail email)).map mapUser

/-- db.saveUser (lines 76-94): upsert of the serialised row, keyed by id. -/
def saveUser (user : User) (db : DB) : DB :=
  if db.workers.any (fun r => r.id == user.id) then
    { db with workers := db.workers.map (fun r => if r.id == user.id then saveUserRow user else r) }
  else
    { db with workers := db.workers ++ [saveUserRow user] }

/-- db.updateUser (lines 95-109): partial update of the rows whose id
matches. -/
def updateUser (userId : String) (up : UserUpdates) (db : DB) : DB :=
  { db with workers := db.workers.map (fun r => if r.id == userId then applyUserUpdates up r else r) }

/-- db.deleteUser (lines 110-116): delete the enrollments, withdrawals and
notifications whose user_id references the account, then the workers row. -/
def deleteUser (userId : String) (db : DB) : DB :=
  { workers := db.workers.filter (fun r => !(r.id == userId))
    jobs := db.jobs
    enrollments := db.enrollments.filter (fun e => !(e.userId == userId))
    withdrawals := db.withdrawals.filter (fun w => !(w.userId == userId))
    notifications := db.notifications.filter (fun n => !(n.user_id == userId)) }

/-- Partial\<Job\> argument of db.updateJob; the handlers only ever pass
enrolledCount and status. -/
structure JobUpdates where
  enrolledCount : Option Int := none
  status : Option JobStatus := none
deriving DecidableEq, Repr

def applyJobUpdates (up : JobUpdates) (j : Job) : Job :=
  { j with
    enrolledCount := up.enrolledCount.getD j.enrolledCount
    status := up.status.getD j.status }

/-- db.updateJob (lines 176-181): partial update of the jobs whose id
matches. -/
def updateJob (jobId : String) (up : JobUpdates) (db : DB) : DB :=
  { db with jobs := db.jobs.map (fun j => if j.id == jobId then applyJobUpdates up j else j) }

/-- db.saveEnrollment (lines 193-201): insert into enrollments.  The table
has UNIQUE(user_id, job_id) (src/supabase_setup.sql line 40), so the insert
fails with a uniqueness violation when the pair is already enrolled. -/
def saveEnrollment (e : Enrollment) (db : DB) : Except String DB :=
  if db.enrollments.any (fun x => x.userId == e.userId && x.jobId == e.jobId) then
    .error "23505"
  else
    .ok { db with enrollments := db.enrollments ++ [e] }

/-- db.deleteEnrollmentByUserAndJob (lines 202-209). -/
def deleteEnrollmentByUserAndJob (userId jobId : String) (db : DB) : DB :=
  { db with enrollments := db.enrollments.filter (fun e => !(e.userId == userId && e.jobId == jobId)) }

/-- db.saveWithdrawal (lines 225-235): insert into withdrawals. -/
def saveWithdrawal (w : WithdrawalRequest) (db : DB) : DB :=
  { db with withdrawals := db.withdrawals ++ [w] }

/-- db.updateWithdrawal (lines 236-239): set the status of the matching
request.  Note that there is no precondition on the current status. -/
def updateWithdrawal (id : String) (status : WithdrawalStatus) (db : DB) : DB :=
  { db with withdrawals := db.withdrawals.map (fun w => if w.id == id then { w with status := status } else w) }

/-- Modelled from the spec: db.checkEnrollment, used by handleEnrollConfirm
in src/App.tsx (line 383), lives in the ./db module that is not part of the
source snapshot.  Per the spec it is the server-side duplicate check made
against the store immediately before the write: whether an Enrollment for
the (worker, job) pair exists. -/
def checkEnrollment (userId jobId : String) (db : DB) : Bool :=
  db.enrollments.any (fun x => x.userId == userId && x.jobId == jobId)

/-- Number of enrollment records referencing a given job. -/
def jobCount (es : List Enrollment) (jobId : String) : Nat :=
  (es.filter (fun e => e.jobId == jobId)).length

/-- Number of enrollment records for a given (worker, job) pair. -/
def pcL (es : List Enrollment) (userId jobId : String) : Nat :=
  (es.filter (fun e => e.userId == userId && e.jobId == jobId)).length

/-- Number of enrollment records for a (worker, job) pair in the store. -/
def pairCount (db : DB) (userId jobId : String) : Nat :=
  pcL db.enrollments userId jobId

/-!
Bookkeeping handlers.  Each handler is modelled in the sequential
single-client semantics: the client caches (jobs, enrollments, workers,
withdrawals) are re-fetched after every mutation, so at the start of a
handler they agree with the store; cached objects passed into a handler are
therefore looked up in the current store.  src/App.tsx fetchData (lines
187-196) additionally reconciles each cached job's enrolledCount with the
actual number of enrollment records, so App.tsx handlers see the reconciled
count; the part_000 and part_001 variants cache the stored count as is.
-/

/-- handleEnrollConfirm from src/App.tsx (lines 366-428).  The cached job
carries the reconciled enrolledCount from fetchData.  If the pair is
already enrolled (server-side checkEnrollment) the enrollment is cancelled
and the count decremented with a floor of zero; otherwise, if capacity
remains, an enrollment is inserted and the count incremented.  A uniqueness
violation on the insert is caught and leaves the store unchanged. -/
def handleEnrollConfirm (uid eid ts jid : String) (db : DB) : DB :=
  match db.jobs.find? (fun j => j.id == jid) with
  | none => db
  | some jstored =>
    let cnt : Int := (jobCount db.enrollments jid : Int)
    if checkEnrollment uid jid db then
      let db1 := deleteEnrollmentByUserAndJob uid jid db
      updateJob jid { enrolledCount := some (max 0 (cnt - 1)) } db1
    else if jstored.maxWorkers ≤ cnt then db
    else
      match saveEnrollment { id := eid, userId := uid, jobId := jid, enrolledAt := ts } db with
      | .error _ => db
      | .ok db1 => updateJob jid { enrolledCount := some (cnt + 1) } db1

/-- handleEnroll from src/unnamed/part_000 (lines 508-528): capacity check
against the cached (stored) count, insert, then increment of the cached
count.  A failing insert is caught before the count update runs. -/
def handleEnroll (uid eid ts jid : String) (db : DB) : DB :=
  match db.jobs.find? (fun j => j.id == jid) with
  | none => db
  | some jstored =>
    if jstored.maxWorkers ≤ jstored.enrolledCount then db
    else
      match saveEnrollment { id := eid, userId := uid, jobId := jid, enrolledAt := ts } db with
      | .error _ => db
      | .ok db1 => updateJob jid { enrolledCount := some (jstored.enrolledCount + 1) } db1

/-- handleUnenroll from src/unnamed/part_000 (lines 530-544): delete the
enrollment for the pair, then write Math.max(0, enrolledCount - 1) using
the cached count.  There is no check that the pair was enrolled. -/
def handleUnenroll (uid jid : String) (db : DB) : DB :=
  match db.jobs.find? (fun j => j.id == jid) with
  | none => db
  | some jstored =>
    let db1 := deleteEnrollmentByUserAndJob uid jid db
    updateJob jid { enrolledCount := some (max 0 (jstored.enrolledCount - 1)) } db1

/-- enrollInJob from src/unnamed/part_001 (lines 364-383): insert, then
write the count recomputed from the cached enrollment records plus one, and
close the job when the new count reaches capacity.  A failing insert is
caught before the count update runs. -/
def enrollInJob (uid eid ts jid : String) (db : DB) : DB :=
  match db.jobs.find? (fun j => j.id == jid) with
  | none => db
  | some jstored =>
    match saveEnrollment { id := eid, userId := uid, jobId := jid, enrolledAt := ts } db with
    | .error _ => db
    | .ok db1 =>
      let currentCount : Int := (jobCount db.enrollments jid : Int) + 1
      updateJob jid
        { enrolledCount := some currentCount
          status := some (if jstored.maxWorkers ≤ currentCount then JobStatus.CLOSED else JobStatus.OPEN) } db1

/-- cancelEnrollment from src/unnamed/part_001 (lines 385-401): delete the
enrollment for the pair unconditionally; if the job is in the cache, write
Math.max(0, cachedEnrollmentsForJob - 1) and reopen the job.  There is no
check that the pair was enrolled. -/
def cancelEnrollment (uid jid : String) (db : DB) : DB :=
  let db1 := deleteEnrollmentByUserAndJob uid jid db
  match db.jobs.find? (fun j => j.id == jid) with
  | none => db1
  | some _jstored =>
    let currentCount : Int := max 0 ((jobCount db.enrollments jid : Int) - 1)
    updateJob jid { enrolledCount := some currentCount, status := some JobStatus.OPEN } db1

/-- handleRequestPayout from src/unnamed/part_000 (lines 546-564): when the
cached balance is positive, insert a PENDING request for the whole balance
and zero the balance. -/
def handleRequestPayout (uid wid ts : String) (db : DB) : DB :=
  match db.workers.find? (fun r => r.id == uid) with
  | none => db
  | some row =>
    let u := mapUser row
    if u.balance ≤ 0 then db
    else
      let db1 := saveWithdrawal { id := wid, userId := u.id, amount := u.balance, status := .PENDING, createdAt := ts } db
      updateUser u.id { balance := some 0 } db1

/-- confirmWithdrawal from src/App.tsx (lines 696-720): insert a PENDING
request for the given amount and subtract it from the cached balance.  The
function itself performs no balance check. -/
def confirmWithdrawal (u : User) (wid ts : String) (amount : Int) (db : DB) : DB :=
  let db1 := saveWithdrawal { id := wid, userId := u.id, amount := amount, status := .PENDING, createdAt := ts } db
  updateUser u.id { balance := some (u.balance - amount) } db1

/-- handleWithdrawalAttempt followed by confirmWithdrawal, src/App.tsx
lines 683-720.  The attempt gates the confirmation dialog: a non-numeric,
non-positive, or over-balance amount never reaches confirmWithdrawal, and
the same withdrawalAmount state feeds both steps. -/
def withdrawFlow (uid wid ts : String) (amount : Int) (db : DB) : DB :=
  match db.workers.find? (fun r => r.id == uid) with
  | none => db
  | some row =>
    let u := mapUser row
    if amount ≤ 0 then db
    else if u.balance < amount then db
    else confirmWithdrawal u wid ts amount db

/-- handleApproveWithdrawal from src/App.tsx (lines 722-727): set the
request status to APPROVED; no balance change. -/
def handleApproveWithdrawal (w : WithdrawalRequest) (db : DB) : DB :=
  updateWithdrawal w.id .APPROVED db

/-- handleRejectWithdrawal from src/App.tsx (lines 729-738): set the
request status to REJECTED and credit the request amount back onto the
cached balance of the worker.  No check of the previous status is made. -/
def handleRejectWithdrawal (w : WithdrawalRequest) (db : DB) : DB :=
  let db1 := updateWithdrawal w.id .REJECTED db
  match db.workers.find? (fun r => r.id == w.userId) with
  | none => db1
  | some row => updateUser row.id { balance := some ((mapUser row).balance + w.amount) } db1

/-- handleAdminPay from src/unnamed/part_000 (lines 623-636) /
handleAddWorkerPay from src/App.tsx (lines 666-681): add the given amount
to the cached balance of the worker.  The amount comes from parseFloat of a
form field (or the pay column of the job) and its sign is never checked. -/
def handleAdminPay (uid : String) (amount : Int) (db : DB) : DB :=
  match db.workers.find? (fun r => r.id == uid) with
  | none => db
  | some row => updateUser uid { balance := some ((mapUser row).balance + amount) } db

/-- validateQrWithAI from src/unnamed/part_001 (lines 10-38).  The reply of
the external classifier is Except.error on service failure (the catch
returns false), Except.ok none when the response carries no text, and
Except.ok (some t) for a textual reply t; acceptance requires the trimmed,
upper-cased text to equal VALID exactly. -/
def validateQrWithAI (reply : Except Unit (Option String)) : Bool :=
  match reply with
  | .error _ => false
  | .ok none => false
  | .ok (some t) => toUpperStr (trimStr t) == "VALID"

/-- handleQrUpload from src/unnamed/part_001 (lines 403-419): update the
qrCode column only when validateQrWithAI accepts; otherwise the store is
untouched. -/
def handleQrUpload (uid : String) (data : String) (reply : Except Unit (Option String)) (db : DB) : DB :=
  if validateQrWithAI reply then updateUser uid { qrCode := some data } db else db

/-- processAndUploadQR from src/App.tsx (lines 475-549): same gate with the
token YES on response.text?.trim().toUpperCase(); a service failure throws
out of the image callback before the update, leaving the store untouched. -/
def processAndUploadQR (uid : String) (orig : String) (reply : Except Unit (Option String)) (db : DB) : DB :=
  match reply with
  | .error _ => db
  | .ok r =>
    if (match r with | some t => toUpperStr (trimStr t) == "YES" | none => false) then
      updateUser uid { qrCode := some orig } db
    else db

/-!
The operation alphabet for reachability: the bookkeeping operations of
spec section 4.2 (enroll, cancel, request payout, resolve payout, record
manual payment), in each implemented variant.  Resolve operations look up
the cached request by id; they are not restricted to PENDING requests,
because the handlers themselves impose no such restriction.
-/

inductive Op where
  | enrollConfirm (uid eid ts jid : String)
  | enrollA (uid eid ts jid : String)
  | unenrollA (uid jid : String)
  | enrollB (uid eid ts jid : String)
  | cancelB (uid jid : String)
  | requestPayout (uid wid ts : String)
  | withdraw (uid wid ts : String) (amount : Int)
  | approveW (wid : String)
  | rejectW (wid : String)
  | adminPay (uid : String) (amount : Int)
deriving DecidableEq, Repr

def step (op : Op) (db : DB) : DB :=
  match op with
  | .enrollConfirm uid eid ts jid => handleEnrollConfirm uid eid ts jid db
  | .enrollA uid eid ts jid => handleEnroll uid eid ts jid db
  | .unenrollA uid jid => handleUnenroll uid jid db
  | .enrollB uid eid ts jid => enrollInJob uid eid ts jid db
  | .cancelB uid jid => cancelEnrollment uid jid db
  | .requestPayout uid wid ts => handleRequestPayout uid wid ts db
  | .withdraw uid wid ts amount => withdrawFlow uid wid ts amount db
  | .approveW wid =>
    match db.withdrawals.find? (fun w => w.id == wid) with
    | some w => handleApproveWithdrawal w db
    | none => db
  | .rejectW wid =>
    match db.withdrawals.find? (fun w => w.id == wid) with
    | some w => handleRejectWithdrawal w db
    | none => db
  | .adminPay uid amount => handleAdminPay uid amount db

def run (ops : List Op) (db : DB) : DB :=
  ops.foldl (fun d o => step o d) db

/-!
State predicates, stated over the membership of the lists so that they are
decidable on concrete stores.
-/

/-- Every worker balance read through the facade is non-negative. -/
def BalancesNonneg (db : DB) : Prop :=
  ∀ r ∈ db.workers, 0 ≤ r.balance.getD 0

instance (db : DB) : Decidable (BalancesNonneg db) := List.decidableBAll _ _

/-- Every stored payout request has a non-negative amount. -/
def WAmountsNonneg (db : DB) : Prop :=
  ∀ w ∈ db.withdrawals, 0 ≤ w.amount

instance (db : DB) : Decidable (WAmountsNonneg db) := List.decidableBAll _ _

/-- At most one enrollment record per (worker, job) pair, phrased over the
records that are present so that it is decidable. -/
def AtMostOneL (es : List Enrollment) : Prop :=
  ∀ e ∈ es, pcL es e.userId e.jobId ≤ 1

instance (es : List Enrollment) : Decidable (AtMostOneL es) := List.decidableBAll _ _

def AtMostOne (db : DB) : Prop := AtMostOneL db.enrollments

instance (db : DB) : Decidable (AtMostOne db) := inferInstanceAs (Decidable (AtMostOneL _))

/-- The denormalised enrolledCount of every job equals the number of
enrollment records referencing it. -/
def CountsMatch (db : DB) : Prop :=
  ∀ j ∈ db.jobs, j.enrolledCount = (jobCount db.enrollments j.id : Int)

instance (db : DB) : Decidable (CountsMatch db) := List.decidableBAll _ _

/-- Guard of a single operation in a trace: cancel operations target a pair
that is enrolled at that point (as the UI enforces by only rendering the
cancel control for jobs the worker is enrolled in). -/
def opOk (op : Op) (db : DB) : Bool :=
  match op with
  | .unenrollA uid jid => checkEnrollment uid jid db
  | .cancelB uid jid => checkEnrollment uid jid db
  | _ => true

/-- A trace is guarded when every cancel operation in it fires on an
enrolled pair at the state where it executes. -/
def okTrace (ops : List Op) (db : DB) : Bool :=
  match ops with
  | [] => true
  | op :: rest => opOk op db && okTrace rest (step op db)

/-- Whether an operation is a manual payment of a negative amount. -/
def payOk (op : Op) : Bool :=
  match op with
  | .adminPay _ amount => if 0 ≤ amount then true else false
  | _ => true

def paysOk (ops : List Op) : Bool := ops.all payOk

/-!
Basic facts about the facade operations.
-/

@[simp] lemma updateUser_jobs (uid : String) (up : UserUpdates) (db : DB) :
    (updateUser uid up db).jobs = db.jobs := rfl

@[simp] lemma updateUser_enrollments (uid : String) (up : UserUpdates) (db : DB) :
    (updateUser uid up db).enrollments = db.enrollments := rfl

@[simp] lemma updateUser_withdrawals (uid : String) (up : UserUpdates) (db : DB) :
    (updateUser uid up db).withdrawals = db.withdrawals := rfl

@[simp] lemma updateJob_workers (jid : String) (up : JobUpdates) (db : DB) :
    (updateJob jid up db).workers = db.workers := rfl

@[simp] lemma updateJob_enrollments (jid : String) (up : JobUpdates) (db : DB) :
    (updateJob jid up db).enrollments = db.enrollments := rfl

@[simp] lemma updateJob_withdrawals (jid : String) (up : JobUpdates) (db : DB) :
    (updateJob jid up db).withdrawals = db.withdrawals := rfl

@[simp] lemma saveWithdrawal_workers (w : WithdrawalRequest) (db : DB) :
    (saveWithdrawal w db).workers = db.workers := rfl

@[simp] lemma saveWithdrawal_jobs (w : WithdrawalRequest) (db : DB) :
    (saveWithdrawal w db).jobs = db.jobs := rfl

@[simp] lemma saveWithdrawal_enrollments (w : WithdrawalRequest) (db : DB) :
    (saveWithdrawal w db).enrollments = db.enrollments := rfl

@[simp] lemma saveWithdrawal_withdrawals (w : WithdrawalRequest) (db : DB) :
    (saveWithdrawal w db).withdrawals = db.withdrawals ++ [w] := rfl

@[simp] lemma updateWithdrawal_workers (id : String) (st : WithdrawalStatus) (db : DB) :
    (updateWithdrawal id st db).workers = db.workers := rfl

@[simp] lemma updateWithdrawal_jobs (id : String) (st : WithdrawalStatus) (db : DB) :
    (updateWithdrawal id st db).jobs = db.jobs := rfl

@[simp] lemma updateWithdrawal_enrollments (id : String) (st : WithdrawalStatus) (db : DB) :
    (updateWithdrawal id st db).enrollments = db.enrollments := rfl

@[simp] lemma deleteEnrollment_workers (uid jid : String) (db : DB) :
    (deleteEnrollmentByUserAndJob uid jid db).workers = db.workers := rfl

@[simp] lemma deleteEnrollment_jobs (uid jid : String) (db : DB) :
    (deleteEnrollmentByUserAndJob uid jid db).jobs = db.jobs := rfl

@[simp] lemma deleteEnrollment_withdrawals (uid jid : String) (db : DB) :
    (deleteEnrollmentByUserAndJob uid jid db).withdrawals = db.withdrawals := rfl

@[simp] lemma deleteEnrollment_enrollments (uid jid : String) (db : DB) :
    (deleteEnrollmentByUserAndJob uid jid db).enrollments =
      db.enrollments.filter (fun e => !(e.userId == uid && e.jobId == jid)) := rfl

lemma saveEnrollment_ok_iff (e : Enrollment) (db db1 : DB) :
    saveEnrollment e db = .ok db1 ↔
      (db.enrollments.any (fun x => x.userId == e.userId && x.jobId == e.jobId) = false ∧
        db1 = { db with enrollments := db.enrollments ++ [e] }) := by
  unfold saveEnrollment
  split
  · simp_all
  · rename_i hg
    rw [Bool.not_eq_true] at hg
    simp [hg]
    exact eq_comm

lemma saveEnrollment_error (e : Enrollment) (db : DB) (msg : String) :
    saveEnrollment e db = .error msg →
      db.enrollments.any (fun x => x.userId == e.userId && x.jobId == e.jobId) = true := by
  unfold saveEnrollment
  split <;> simp_all

/-!
Counting lemmas.
-/

lemma pcL_append (es : List Enrollment) (e : Enrollment) (u j : String) :
    pcL (es ++ [e]) u j = pcL es u j + (if e.userId == u && e.jobId == j then 1 else 0) := by
  unfold pcL
  rw [List.filter_append, List.length_append]
  by_cases hu : (e.userId == u) = true <;> by_cases hj : (e.jobId == j) = true <;>
    simp [List.filter_cons, hu, hj]

lemma pcL_filter_le (es : List Enrollment) (p : Enrollment → Bool) (u j : String) :
    pcL (es.filter p) u j ≤ pcL es u j := by
  unfold pcL
  exact List.Sublist.length_le ((List.filter_sublist es).filter _)

lemma pcL_eq_zero_of_any_false (es : List Enrollment) (u j : String)
    (h : es.any (fun x => x.userId == u && x.jobId == j) = false) : pcL es u j = 0 := by
  unfold pcL
  rw [List.length_eq_zero, List.filter_eq_nil_iff]
  intro a ha
  rw [List.any_eq_false] at h
  exact h a ha

lemma delete_eq_self_of_pcL_zero (es : List Enrollment) (u j : String)
    (h : pcL es u j = 0) :
    es.filter (fun e => !(e.userId == u && e.jobId == j)) = es := by
  have h0 : ∀ a ∈ es, ¬(a.userId == u && a.jobId == j) = true := by
    unfold pcL at h
    exact List.filter_eq_nil_iff.mp (List.length_eq_zero.mp h)
  rw [List.filter_eq_self]
  intro a ha
  rw [Bool.not_eq_true']
  exact Bool.eq_false_iff.mpr (h0 a ha)

lemma jobCount_append (es : List Enrollment) (e : Enrollment) (j : String) :
    jobCount (es ++ [e]) j = jobCount es j + (if e.jobId == j then 1 else 0) := by
  unfold jobCount
  rw [List.filter_append, List.length_append]
  rcases Bool.eq_false_or_eq_true (e.jobId == j) with h | h <;>
    simp [List.filter_cons, h]

lemma jobCount_delete_add_pcL (es : List Enrollment) (u j : String) :
    jobCount es j =
      jobCount (es.filter (fun e => !(e.userId == u && e.jobId == j))) j + pcL es u j := by
  induction es with
  | nil => rfl
  | cons e es ih =>
    by_cases hu : (e.userId == u) = true <;> by_cases hj : (e.jobId == j) = true <;>
      simp [jobCount, pcL, List.filter_cons, hu, hj] at ih ⊢ <;> omega

lemma atMostOneL_filter (es : List Enrollment) (p : Enrollment → Bool) (h : AtMostOneL es) :
    AtMostOneL (es.filter p) := by
  intro e he
  exact le_trans (pcL_filter_le es p _ _) (h e (List.mem_of_mem_filter he))

lemma atMostOneL_append (es : List Enrollment) (e : Enrollment) (h : AtMostOneL es)
    (h0 : pcL es e.userId e.jobId = 0) : AtMostOneL (es ++ [e]) := by
  intro x hx
  rw [pcL_append]
  rcases List.mem_append.mp hx with hx | hx
  · by_cases hc : (e.userId == x.userId && e.jobId == x.jobId) = true
    · have h1 : e.userId = x.userId := eq_of_beq ((Bool.and_eq_true _ _).mp hc).1
      have h2 : e.jobId = x.jobId := eq_of_beq ((Bool.and_eq_true _ _).mp hc).2
      have hz : pcL es x.userId x.jobId = 0 := by
        rw [← h1, ← h2]
        exact h0
      simp [hc, hz]
    · simp only [hc, if_false, Nat.add_zero, ite_false]
      exact h x hx
  · have hx' : x = e := by simpa using hx
    subst hx'
    simp only [beq_self_eq_true, Bool.and_self, if_true, ite_true]
    omega

lemma jobCount_delete_ne (es : List Enrollment) (u j0 j : String) (h : ¬ j0 = j) :
    jobCount (es.filter (fun e => !(e.userId == u && e.jobId == j0))) j = jobCount es j := by
  have hjj : ∀ e : Enrollment, (e.jobId == j0) = true → (e.jobId == j) = false := by
    intro e he
    rw [beq_eq_false_iff_ne, eq_of_beq he]
    exact h
  induction es with
  | nil => rfl
  | cons e es ih =>
    by_cases hu : (e.userId == u) = true <;> by_cases hj0 : (e.jobId == j0) = true <;>
      first
      | (have hj := hjj e hj0
         simp [jobCount, List.filter_cons, hu, hj0, hj] at ih ⊢
         omega)
      | (by_cases hj : (e.jobId == j) = true <;>
         simp [jobCount, List.filter_cons, hu, hj0, hj] at ih ⊢ <;>
         omega)

/-!
Effect of each handler on the enrollments table, and preservation of the
one-enrollment-per-pair invariant.
-/

lemma handleRequestPayout_enrollments (uid wid ts : String) (db : DB) :
    (handleRequestPayout uid wid ts db).enrollments = db.enrollments := by
  unfold handleRequestPayout
  split
  · rfl
  · dsimp only
    split <;> rfl

lemma withdrawFlow_enrollments (uid wid ts : String) (amount : Int) (db : DB) :
    (withdrawFlow uid wid ts amount db).enrollments = db.enrollments := by
  unfold withdrawFlow confirmWithdrawal
  split
  · rfl
  · dsimp only
    split
    · rfl
    · split <;> rfl

lemma handleRejectWithdrawal_enrollments (w : WithdrawalRequest) (db : DB) :
    (handleRejectWithdrawal w db).enrollments = db.enrollments := by
  unfold handleRejectWithdrawal
  split <;> rfl

lemma handleAdminPay_enrollments (uid : String) (amount : Int) (db : DB) :
    (handleAdminPay uid amount db).enrollments = db.enrollments := by
  unfold handleAdminPay
  split <;> rfl

lemma atMostOne_handleEnrollConfirm (uid eid ts jid : String) (db : DB) (h : AtMostOne db) :
    AtMostOne (handleEnrollConfirm uid eid ts jid db) := by
  unfold handleEnrollConfirm
  split
  · exact h
  · dsimp only
    split
    · unfold AtMostOne
      simp only [updateJob_enrollments, deleteEnrollment_enrollments]
      exact atMostOneL_filter _ _ h
    · split
      · exact h
      · split
        · exact h
        · rename_i db1 hok
          rw [saveEnrollment_ok_iff] at hok
          obtain ⟨hany, rfl⟩ := hok
          unfold AtMostOne
          simp only [updateJob_enrollments]
          exact atMostOneL_append _ _ h (pcL_eq_zero_of_any_false _ _ _ hany)

lemma atMostOne_handleEnroll (uid eid ts jid : String) (db : DB) (h : AtMostOne db) :
    AtMostOne (handleEnroll uid eid ts jid db) := by
  unfold handleEnroll
  split
  · exact h
  · split
    · exact h
    · split
      · exact h
      · rename_i db1 hok
        rw [saveEnrollment_ok_iff] at hok
        obtain ⟨hany, rfl⟩ := hok
        unfold AtMostOne
        simp only [updateJob_enrollments]
        exact atMostOneL_append _ _ h (pcL_eq_zero_of_any_false _ _ _ hany)

lemma atMostOne_handleUnenroll (uid jid : String) (db : DB) (h : AtMostOne db) :
    AtMostOne (handleUnenroll uid jid db) := by
  unfold handleUnenroll
  split
  · exact h
  · unfold AtMostOne
    simp only [updateJob_enrollments, deleteEnrollment_enrollments]
    exact atMostOneL_filter _ _ h

lemma atMostOne_enrollInJob (uid eid ts jid : String) (db : DB) (h : AtMostOne db) :
    AtMostOne (enrollInJob uid eid ts jid db) := by
  unfold enrollInJob
  split
  · exact h
  · dsimp only
    split
    · exact h
    · rename_i db1 hok
      rw [saveEnrollment_ok_iff] at hok
      obtain ⟨hany, rfl⟩ := hok
      unfold AtMostOne
      simp only [updateJob_enrollments]
      exact atMostOneL_append _ _ h (pcL_eq_zero_of_any_false _ _ _ hany)

lemma atMostOne_cancelEnrollment (uid jid : String) (db : DB) (h : AtMostOne db) :
    AtMostOne (cancelEnrollment uid jid db) := by
  unfold cancelEnrollment
  split
  · unfold AtMostOne
    simp only [deleteEnrollment_enrollments]
    exact atMostOneL_filter _ _ h
  · unfold AtMostOne
    simp only [updateJob_enrollments, deleteEnrollment_enrollments]
    exact atMostOneL_filter _ _ h

lemma step_atMostOne (op : Op) (db : DB) (h : AtMostOne db) : AtMostOne (step op db) := by
  cases op with
  | enrollConfirm uid eid ts jid => exact atMostOne_handleEnrollConfirm uid eid ts jid db h
  | enrollA uid eid ts jid => exact atMostOne_handleEnroll uid eid ts jid db h
  | unenrollA uid jid => exact atMostOne_handleUnenroll uid jid db h
  | enrollB uid eid ts jid => exact atMostOne_enrollInJob uid eid ts jid db h
  | cancelB uid jid => exact atMostOne_cancelEnrollment uid jid db h
  | requestPayout uid wid ts =>
    unfold AtMostOne
    rw [show step (Op.requestPayout uid wid ts) db = handleRequestPayout uid wid ts db from rfl]
    rw [handleRequestPayout_enrollments]
    exact h
  | withdraw uid wid ts amount =>
    unfold AtMostOne
    rw [show step (Op.withdraw uid wid ts amount) db = withdrawFlow uid wid ts amount db from rfl]
    rw [withdrawFlow_enrollments]
    exact h
  | approveW wid =>
    simp only [step]
    split
    · unfold AtMostOne handleApproveWithdrawal
      simp only [updateWithdrawal_enrollments]
      exact h
    · exact h
  | rejectW wid =>
    simp only [step]
    split
    · unfold AtMostOne
      rw [handleRejectWithdrawal_enrollments]
      exact h
    · exact h
  | adminPay uid amount =>
    unfold AtMostOne
    rw [show step (Op.adminPay uid amount) db = handleAdminPay uid amount db from rfl]
    rw [handleAdminPay_enrollments]
    exact h

lemma run_cons (op : Op) (ops : List Op) (db : DB) :
    run (op :: ops) db = run ops (step op db) := rfl

lemma run_atMostOne (ops : List Op) (db : DB) (h : AtMostOne db) : AtMostOne (run ops db) := by
  induction ops generalizing db with
  | nil => exact h
  | cons op rest ih => exact ih _ (step_atMostOne op db h)

/-!
Preservation of the count reconciliation invariant.
-/

lemma pcL_eq_one (es : List Enrollment) (u j : String) (hA : AtMostOneL es)
    (hany : es.any (fun x => x.userId == u && x.jobId == j) = true) : pcL es u j = 1 := by
  rcases List.any_eq_true.mp hany with ⟨x, hx, hpx⟩
  have h1 : x.userId = u := eq_of_beq ((Bool.and_eq_true _ _).mp hpx).1
  have h2 : x.jobId = j := eq_of_beq ((Bool.and_eq_true _ _).mp hpx).2
  have hle : pcL es u j ≤ 1 := by
    rw [← h1, ← h2]
    exact hA x hx
  have hpos : 0 < pcL es u j := by
    unfold pcL
    exact List.length_pos_of_mem (List.mem_filter.mpr ⟨hx, hpx⟩)
  omega

lemma applyJobUpdates_id (up : JobUpdates) (j : Job) : (applyJobUpdates up j).id = j.id := rfl

lemma countsMatch_updateJob (db : DB) (E2 : List Enrollment) (jid : String) (up : JobUpdates)
    (c : Int) (hup : up.enrolledCount = some c)
    (hothers : ∀ j ∈ db.jobs, ¬ j.id = jid → j.enrolledCount = (jobCount E2 j.id : Int))
    (hc : c = (jobCount E2 jid : Int)) :
    ∀ j ∈ db.jobs.map (fun j => if j.id == jid then applyJobUpdates up j else j),
      j.enrolledCount = (jobCount E2 j.id : Int) := by
  intro j' hj'
  rcases List.mem_map.mp hj' with ⟨j, hj, heq⟩
  by_cases hid : (j.id == jid) = true
  · rw [if_pos hid] at heq
    subst heq
    have hcnt : (applyJobUpdates up j).enrolledCount = c := by
      simp [applyJobUpdates, hup]
    rw [hcnt, applyJobUpdates_id, eq_of_beq hid, hc]
  · rw [if_neg hid] at heq
    subst heq
    exact hothers j hj (by simpa using hid)

lemma countsMatch_handleEnrollConfirm (uid eid ts jid : String) (db : DB)
    (hA : AtMostOne db) (hC : CountsMatch db) :
    CountsMatch (handleEnrollConfirm uid eid ts jid db) := by
  unfold handleEnrollConfirm
  split
  · exact hC
  · rename_i jstored hfind
    dsimp only
    split
    · rename_i hcheck
      unfold checkEnrollment at hcheck
      have hone : pcL db.enrollments uid jid = 1 := pcL_eq_one _ _ _ hA hcheck
      have hsplit := jobCount_delete_add_pcL db.enrollments uid jid
      intro j' hj'
      unfold updateJob at hj'
      simp only [deleteEnrollment_enrollments, updateJob_enrollments] at hj' ⊢
      refine countsMatch_updateJob db _ jid _ _ rfl ?_ ?_ j' hj'
      · intro j hj hne
        rw [hC j hj, jobCount_delete_ne db.enrollments uid jid j.id (fun hh => hne hh.symm)]
      · have : (0 : Int) ≤ (jobCount (db.enrollments.filter
            (fun e => !(e.userId == uid && e.jobId == jid))) jid : Int) := Int.ofNat_nonneg _
        rw [max_eq_right]
        · omega
        · omega
    · split
      · exact hC
      · split
        · exact hC
        · rename_i db1 hok
          rw [saveEnrollment_ok_iff] at hok
          obtain ⟨hany, rfl⟩ := hok
          intro j' hj'
          unfold updateJob at hj'
          simp only [updateJob_enrollments] at hj' ⊢
          refine countsMatch_updateJob _ _ jid _ _ rfl ?_ ?_ j' hj'
          · intro j hj hne
            rw [hC j hj, jobCount_append]
            have : ((jid : String) == j.id) = false := by
              rw [beq_eq_false_iff_ne]
              exact fun hh => hne hh.symm
            simp [this]
          · rw [jobCount_append]
            simp

lemma countsMatch_handleEnroll (uid eid ts jid : String) (db : DB) (hC : CountsMatch db) :
    CountsMatch (handleEnroll uid eid ts jid db) := by
  unfold handleEnroll
  split
  · exact hC
  · rename_i jstored hfind
    split
    · exact hC
    · split
      · exact hC
      · rename_i db1 hok
        rw [saveEnrollment_ok_iff] at hok
        obtain ⟨hany, rfl⟩ := hok
        have hmem : jstored ∈ db.jobs := List.mem_of_find?_eq_some hfind
        have hid : jstored.id = jid := by simpa using List.find?_some hfind
        have hcnt : jstored.enrolledCount = (jobCount db.enrollments jid : Int) := by
          rw [hC jstored hmem, hid]
        intro j' hj'
        unfold updateJob at hj'
        simp only [updateJob_enrollments] at hj' ⊢
        refine countsMatch_updateJob _ _ jid _ _ rfl ?_ ?_ j' hj'
        · intro j hj hne
          rw [hC j hj, jobCount_append]
          have : ((jid : String) == j.id) = false := by
            rw [beq_eq_false_iff_ne]
            exact fun hh => hne hh.symm
          simp [this]
        · rw [jobCount_append]
          simp [hcnt]

lemma countsMatch_handleUnenroll (uid jid : String) (db : DB)
    (hA : AtMostOne db) (hC : CountsMatch db) (hok : checkEnrollment uid jid db = true) :
    CountsMatch (handleUnenroll uid jid db) := by
  unfold handleUnenroll
  split
  · exact hC
  · rename_i jstored hfind
    unfold checkEnrollment at hok
    have hone : pcL db.enrollments uid jid = 1 := pcL_eq_one _ _ _ hA hok
    have hsplit := jobCount_delete_add_pcL db.enrollments uid jid
    have hmem : jstored ∈ db.jobs := List.mem_of_find?_eq_some hfind
    have hid : jstored.id = jid := by simpa using List.find?_some hfind
    have hcnt : jstored.enrolledCount = (jobCount db.enrollments jid : Int) := by
      rw [hC jstored hmem, hid]
    intro j' hj'
    unfold updateJob at hj'
    simp only [deleteEnrollment_enrollments, updateJob_enrollments] at hj' ⊢
    refine countsMatch_updateJob db _ jid _ _ rfl ?_ ?_ j' hj'
    · intro j hj hne
      rw [hC j hj, jobCount_delete_ne db.enrollments uid jid j.id (fun hh => hne hh.symm)]
    · rw [max_eq_right]
      · rw [hcnt]
        omega
      · rw [hcnt]
        omega

lemma countsMatch_enrollInJob (uid eid ts jid : String) (db : DB) (hC : CountsMatch db) :
    CountsMatch (enrollInJob uid eid ts jid db) := by
  unfold enrollInJob
  split
  · exact hC
  · split
    · exact hC
    · rename_i db1 hok
      rw [saveEnrollment_ok_iff] at hok
      obtain ⟨hany, rfl⟩ := hok
      dsimp only
      intro j' hj'
      unfold updateJob at hj'
      simp only [updateJob_enrollments] at hj' ⊢
      refine countsMatch_updateJob _ _ jid _ _ rfl ?_ ?_ j' hj'
      · intro j hj hne
        rw [hC j hj, jobCount_append]
        have : ((jid : String) == j.id) = false := by
          rw [beq_eq_false_iff_ne]
          exact fun hh => hne hh.symm
        simp [this]
      · rw [jobCount_append]
        simp

lemma countsMatch_cancelEnrollment (uid jid : String) (db : DB)
    (hA : AtMostOne db) (hC : CountsMatch db) (hok : checkEnrollment uid jid db = true) :
    CountsMatch (cancelEnrollment uid jid db) := by
  unfold cancelEnrollment
  unfold checkEnrollment at hok
  have hone : pcL db.enrollments uid jid = 1 := pcL_eq_one _ _ _ hA hok
  have hsplit := jobCount_delete_add_pcL db.enrollments uid jid
  split
  · rename_i hfind
    intro j' hj'
    simp only [deleteEnrollment_jobs, deleteEnrollment_enrollments] at hj' ⊢
    have hne : ¬ j'.id = jid := by
      have := List.find?_eq_none.mp hfind j' hj'
      simpa using this
    rw [hC j' hj', jobCount_delete_ne db.enrollments uid jid j'.id (fun hh => hne hh.symm)]
  · rename_i jstored hfind
    dsimp only
    intro j' hj'
    unfold updateJob at hj'
    simp only [deleteEnrollment_jobs, deleteEnrollment_enrollments, updateJob_enrollments] at hj' ⊢
    refine countsMatch_updateJob db _ jid _ _ rfl ?_ ?_ j' hj'
    · intro j hj hne
      rw [hC j hj, jobCount_delete_ne db.enrollments uid jid j.id (fun hh => hne hh.symm)]
    · rw [max_eq_right]
      · omega
      · omega

lemma handleRequestPayout_jobs (uid wid ts : String) (db : DB) :
    (handleRequestPayout uid wid ts db).jobs = db.jobs := by
  unfold handleRequestPayout
  split
  · rfl
  · dsimp only
    split <;> rfl

lemma withdrawFlow_jobs (uid wid ts : String) (amount : Int) (db : DB) :
    (withdrawFlow uid wid ts amount db).jobs = db.jobs := by
  unfold withdrawFlow confirmWithdrawal
  split
  · rfl
  · dsimp only
    split
    · rfl
    · split <;> rfl

lemma handleRejectWithdrawal_jobs (w : WithdrawalRequest) (db : DB) :
    (handleRejectWithdrawal w db).jobs = db.jobs := by
  unfold handleRejectWithdrawal
  split <;> rfl

lemma handleAdminPay_jobs (uid : String) (amount : Int) (db : DB) :
    (handleAdminPay uid amount db).jobs = db.jobs := by
  unfold handleAdminPay
  split <;> rfl

lemma countsMatch_of_eq (db1 db2 : DB) (hj : db2.jobs = db1.jobs)
    (he : db2.enrollments = db1.enrollments) (h : CountsMatch db1) : CountsMatch db2 := by
  unfold CountsMatch
  rw [hj, he]
  exact h

lemma step_countsMatch (op : Op) (db : DB) (hA : AtMostOne db) (hC : CountsMatch db)
    (hok : opOk op db = true) : CountsMatch (step op db) := by
  cases op with
  | enrollConfirm uid eid ts jid => exact countsMatch_handleEnrollConfirm uid eid ts jid db hA hC
  | enrollA uid eid ts jid => exact countsMatch_handleEnroll uid eid ts jid db hC
  | unenrollA uid jid => exact countsMatch_handleUnenroll uid jid db hA hC hok
  | enrollB uid eid ts jid => exact countsMatch_enrollInJob uid eid ts jid db hC
  | cancelB uid jid => exact countsMatch_cancelEnrollment uid jid db hA hC hok
  | requestPayout uid wid ts =>
    exact countsMatch_of_eq db _ (handleRequestPayout_jobs uid wid ts db)
      (handleRequestPayout_enrollments uid wid ts db) hC
  | withdraw uid wid ts amount =>
    exact countsMatch_of_eq db _ (withdrawFlow_jobs uid wid ts amount db)
      (withdrawFlow_enrollments uid wid ts amount db) hC
  | approveW wid =>
    simp only [step]
    split
    · exact countsMatch_of_eq db _ rfl rfl hC
    · exact hC
  | rejectW wid =>
    simp only [step]
    split
    · exact countsMatch_of_eq db _ (handleRejectWithdrawal_jobs _ db)
        (handleRejectWithdrawal_enrollments _ db) hC
    · exact hC
  | adminPay uid amount =>
    exact countsMatch_of_eq db _ (handleAdminPay_jobs uid amount db)
      (handleAdminPay_enrollments uid amount db) hC

lemma run_countsMatch (ops : List Op) (db : DB) (hA : AtMostOne db) (hC : CountsMatch db)
    (hok : okTrace ops db = true) : CountsMatch (run ops db) := by
  induction ops generalizing db with
  | nil => exact hC
  | cons op rest ih =>
    unfold okTrace at hok
    rcases Bool.and_eq_true _ _ |>.mp hok with ⟨h1, h2⟩
    exact ih (step op db) (step_atMostOne op db hA) (step_countsMatch op db hA hC h1) h2

/-!
Preservation of non-negative balances and request amounts.
-/

lemma balancesNonneg_updateUser (db : DB) (uid : String) (up : UserUpdates)
    (hb : BalancesNonneg db) (hup : ∀ b, up.balance = some b → 0 ≤ b) :
    BalancesNonneg (updateUser uid up db) := by
  intro r hr
  rcases List.mem_map.mp hr with ⟨r0, hr0, heq⟩
  by_cases hid : (r0.id == uid) = true
  · rw [if_pos hid] at heq
    subst heq
    cases hub : up.balance with
    | none =>
      have : (applyUserUpdates up r0).balance = r0.balance := by
        simp [applyUserUpdates, hub]
      rw [this]
      exact hb r0 hr0
    | some b =>
      have : (applyUserUpdates up r0).balance = some b := by
        simp [applyUserUpdates, hub]
      rw [this]
      simpa using hup b hub
  · rw [if_neg hid] at heq
    subst heq
    exact hb r0 hr0

lemma wamounts_updateUser (db : DB) (uid : String) (up : UserUpdates)
    (hw : WAmountsNonneg db) : WAmountsNonneg (updateUser uid up db) := by
  unfold WAmountsNonneg
  rw [updateUser_withdrawals]
  exact hw

lemma wamounts_updateWithdrawal (db : DB) (id : String) (st : WithdrawalStatus)
    (hw : WAmountsNonneg db) : WAmountsNonneg (updateWithdrawal id st db) := by
  intro w hwm
  rcases List.mem_map.mp hwm with ⟨w0, hw0, heq⟩
  by_cases hid : (w0.id == id) = true
  · rw [if_pos hid] at heq
    subst heq
    exact hw w0 hw0
  · rw [if_neg hid] at heq
    subst heq
    exact hw w0 hw0

lemma wamounts_saveWithdrawal (db : DB) (w : WithdrawalRequest)
    (hw : WAmountsNonneg db) (ha : 0 ≤ w.amount) : WAmountsNonneg (saveWithdrawal w db) := by
  intro x hx
  rw [saveWithdrawal_withdrawals] at hx
  rcases List.mem_append.mp hx with hx | hx
  · exact hw x hx
  · have : x = w := by simpa using hx
    subst this
    exact ha

lemma balancesNonneg_of_workers_eq (db1 db2 : DB) (h : db2.workers = db1.workers)
    (hb : BalancesNonneg db1) : BalancesNonneg db2 := by
  unfold BalancesNonneg
  rw [h]
  exact hb

lemma wamounts_of_withdrawals_eq (db1 db2 : DB) (h : db2.withdrawals = db1.withdrawals)
    (hw : WAmountsNonneg db1) : WAmountsNonneg db2 := by
  unfold WAmountsNonneg
  rw [h]
  exact hw

lemma mapUser_balance_nonneg (db : DB) (r : WorkerRow) (hb : BalancesNonneg db)
    (hr : r ∈ db.workers) : 0 ≤ (mapUser r).balance := hb r hr

lemma handleEnrollConfirm_workers (uid eid ts jid : String) (db : DB) :
    (handleEnrollConfirm uid eid ts jid db).workers = db.workers := by
  unfold handleEnrollConfirm
  split
  · rfl
  · dsimp only
    split
    · rfl
    · split
      · rfl
      · split
        · rfl
        · rename_i db1 hok
          rw [saveEnrollment_ok_iff] at hok
          obtain ⟨-, rfl⟩ := hok
          rfl

lemma handleEnrollConfirm_withdrawals (uid eid ts jid : String) (db : DB) :
    (handleEnrollConfirm uid eid ts jid db).withdrawals = db.withdrawals := by
  unfold handleEnrollConfirm
  split
  · rfl
  · dsimp only
    split
    · rfl
    · split
      · rfl
      · split
        · rfl
        · rename_i db1 hok
          rw [saveEnrollment_ok_iff] at hok
          obtain ⟨-, rfl⟩ := hok
          rfl

lemma handleEnroll_workers (uid eid ts jid : String) (db : DB) :
    (handleEnroll uid eid ts jid db).workers = db.workers := by
  unfold handleEnroll
  split
  · rfl
  · split
    · rfl
    · split
      · rfl
      · rename_i db1 hok
        rw [saveEnrollment_ok_iff] at hok
        obtain ⟨-, rfl⟩ := hok
        rfl

lemma handleEnroll_withdrawals (uid eid ts jid : String) (db : DB) :
    (handleEnroll uid eid ts jid db).withdrawals = db.withdrawals := by
  unfold handleEnroll
  split
  · rfl
  · split
    · rfl
    · split
      · rfl
      · rename_i db1 hok
        rw [saveEnrollment_ok_iff] at hok
        obtain ⟨-, rfl⟩ := hok
        rfl

lemma handleUnenroll_workers (uid jid : String) (db : DB) :
    (handleUnenroll uid jid db).workers = db.workers := by
  unfold handleUnenroll
  split <;> rfl

lemma handleUnenroll_withdrawals (uid jid : String) (db : DB) :
    (handleUnenroll uid jid db).withdrawals = db.withdrawals := by
  unfold handleUnenroll
  split <;> rfl

lemma enrollInJob_workers (uid eid ts jid : String) (db : DB) :
    (enrollInJob uid eid ts jid db).workers = db.workers := by
  unfold enrollInJob
  split
  · rfl
  · split
    · rfl
    · rename_i db1 hok
      rw [saveEnrollment_ok_iff] at hok
      obtain ⟨-, rfl⟩ := hok
      rfl

lemma enrollInJob_withdrawals (uid eid ts jid : String) (db : DB) :
    (enrollInJob uid eid ts jid db).withdrawals = db.withdrawals := by
  unfold enrollInJob
  split
  · rfl
  · split
    · rfl
    · rename_i db1 hok
      rw [saveEnrollment_ok_iff] at hok
      obtain ⟨-, rfl⟩ := hok
      rfl

lemma cancelEnrollment_workers (uid jid : String) (db : DB) :
    (cancelEnrollment uid jid db).workers = db.workers := by
  unfold cancelEnrollment
  split <;> rfl

lemma cancelEnrollment_withdrawals (uid jid : String) (db : DB) :
    (cancelEnrollment uid jid db).withdrawals = db.withdrawals := by
  unfold cancelEnrollment
  split <;> rfl

lemma step_money (op : Op) (db : DB) (hb : BalancesNonneg db) (hw : WAmountsNonneg db)
    (hp : payOk op = true) :
    BalancesNonneg (step op db) ∧ WAmountsNonneg (step op db) := by
  cases op with
  | enrollConfirm uid eid ts jid =>
    exact ⟨balancesNonneg_of_workers_eq db _ (handleEnrollConfirm_workers uid eid ts jid db) hb,
      wamounts_of_withdrawals_eq db _ (handleEnrollConfirm_withdrawals uid eid ts jid db) hw⟩
  | enrollA uid eid ts jid =>
    exact ⟨balancesNonneg_of_workers_eq db _ (handleEnroll_workers uid eid ts jid db) hb,
      wamounts_of_withdrawals_eq db _ (handleEnroll_withdrawals uid eid ts jid db) hw⟩
  | unenrollA uid jid =>
    exact ⟨balancesNonneg_of_workers_eq db _ (handleUnenroll_workers uid jid db) hb,
      wamounts_of_withdrawals_eq db _ (handleUnenroll_withdrawals uid jid db) hw⟩
  | enrollB uid eid ts jid =>
    exact ⟨balancesNonneg_of_workers_eq db _ (enrollInJob_workers uid eid ts jid db) hb,
      wamounts_of_withdrawals_eq db _ (enrollInJob_withdrawals uid eid ts jid db) hw⟩
  | cancelB uid jid =>
    exact ⟨balancesNonneg_of_workers_eq db _ (cancelEnrollment_workers uid jid db) hb,
      wamounts_of_withdrawals_eq db _ (cancelEnrollment_withdrawals uid jid db) hw⟩
  | requestPayout uid wid ts =>
    simp only [step]
    unfold handleRequestPayout
    split
    · exact ⟨hb, hw⟩
    · rename_i row hfind
      dsimp only
      split
      · exact ⟨hb, hw⟩
      · rename_i hbal
        have hrow : row ∈ db.workers := List.mem_of_find?_eq_some hfind
        have h0 : 0 < (mapUser row).balance := not_le.mp hbal
        constructor
        · apply balancesNonneg_updateUser
          · exact balancesNonneg_of_workers_eq db _ rfl hb
          · intro b hbsome
            have hb0 : b = 0 := by simpa using hbsome.symm
            omega
        · apply wamounts_updateUser
          exact wamounts_saveWithdrawal db _ hw (le_of_lt h0)
  | withdraw uid wid ts amount =>
    simp only [step]
    unfold withdrawFlow
    split
    · exact ⟨hb, hw⟩
    · rename_i row hfind
      dsimp only
      split
      · exact ⟨hb, hw⟩
      · split
        · exact ⟨hb, hw⟩
        · rename_i h1 h2
          unfold confirmWithdrawal
          constructor
          · apply balancesNonneg_updateUser
            · exact balancesNonneg_of_workers_eq db _ rfl hb
            · intro b hbsome
              have hbe : b = (mapUser row).balance - amount := by simpa using hbsome.symm
              have hle : amount ≤ (mapUser row).balance := not_lt.mp h2
              omega
          · apply wamounts_updateUser
            exact wamounts_saveWithdrawal db _ hw (le_of_lt (not_le.mp h1))
  | approveW wid =>
    simp only [step]
    split
    · unfold handleApproveWithdrawal
      exact ⟨balancesNonneg_of_workers_eq db _ rfl hb, wamounts_updateWithdrawal db _ _ hw⟩
    · exact ⟨hb, hw⟩
  | rejectW wid =>
    simp only [step]
    split
    · rename_i w hfindw
      have hwa : 0 ≤ w.amount := hw w (List.mem_of_find?_eq_some hfindw)
      unfold handleRejectWithdrawal
      split
      · exact ⟨balancesNonneg_of_workers_eq db _ rfl hb, wamounts_updateWithdrawal db _ _ hw⟩
      · rename_i row hfindr
        constructor
        · apply balancesNonneg_updateUser
          · exact balancesNonneg_of_workers_eq db _ rfl hb
          · intro b hbsome
            have hbe : b = (mapUser row).balance + w.amount := by simpa using hbsome.symm
            have hrb : 0 ≤ (mapUser row).balance :=
              mapUser_balance_nonneg db row hb (List.mem_of_find?_eq_some hfindr)
            omega
        · apply wamounts_updateUser
          exact wamounts_updateWithdrawal db _ _ hw
    · exact ⟨hb, hw⟩
  | adminPay uid amount =>
    have ha : (0 : Int) ≤ amount := by
      by_contra hc
      simp [payOk, hc] at hp
    simp only [step]
    unfold handleAdminPay
    split
    · exact ⟨hb, hw⟩
    · rename_i row hfindr
      constructor
      · apply balancesNonneg_updateUser _ _ _ hb
        intro b hbsome
        have hbe : b = (mapUser row).balance + amount := by simpa using hbsome.symm
        have hrb : 0 ≤ (mapUser row).balance :=
          mapUser_balance_nonneg db row hb (List.mem_of_find?_eq_some hfindr)
        omega
      · exact wamounts_updateUser _ _ _ hw

lemma run_money (ops : List Op) (db : DB) (hb : BalancesNonneg db) (hw : WAmountsNonneg db)
    (hp : paysOk ops = true) :
    BalancesNonneg (run ops db) ∧ WAmountsNonneg (run ops db) := by
  induction ops generalizing db with
  | nil => exact ⟨hb, hw⟩
  | cons op rest ih =>
    unfold paysOk at hp
    rw [List.all_cons] at hp
    rcases Bool.and_eq_true _ _ |>.mp hp with ⟨h1, h2⟩
    rcases step_money op db hb hw h1 with ⟨hb1, hw1⟩
    exact ih (step op db) hb1 hw1 h2

lemma pcL_le_one_of_atMostOneL (es : List Enrollment) (u j : String) (h : AtMostOneL es) :
    pcL es u j ≤ 1 := by
  by_cases hz : pcL es u j = 0
  · omega
  · have hpos : 0 < (es.filter (fun e => e.userId == u && e.jobId == j)).length := by
      have := Nat.pos_of_ne_zero hz
      unfold pcL at this
      exact this
    rcases List.exists_mem_of_length_pos hpos with ⟨x, hx⟩
    have hxm := List.mem_filter.mp hx
    have h1 : x.userId = u := eq_of_beq ((Bool.and_eq_true _ _).mp hxm.2).1
    have h2 : x.jobId = j := eq_of_beq ((Bool.and_eq_true _ _).mp hxm.2).2
    have hle := h x hxm.1
    rw [h1, h2] at hle
    exact hle

/-- Whether the App.tsx QR gate accepts a classifier reply: the reply must
carry text whose trimmed upper-casing is exactly YES. -/
def acceptsYes (reply : Except Unit (Option String)) : Bool :=
  match reply with
  | .ok (some t) => toUpperStr (trimStr t) == "YES"
  | _ => false

/-!
Concrete stores used by the scenario theorems, witnesses and
counterexamples.
-/

/-- A worker row with balance 500 (spec Scenario B). -/
def wRow500 : WorkerRow :=
  { id := "w1", name := "Asha", email := "w1@crewx.io", password := none, phone := none,
    role := some "WORKER", balance := some 500, qr_code := none, age := none, experience := none }

def dbScenarioB : DB := { emptyDB with workers := [wRow500] }

/-- A store holding an already-REJECTED payout request of amount 500 next
to its worker whose balance has been restored to 500. -/
def dbResolved : DB :=
  { emptyDB with
    workers := [wRow500]
    withdrawals :=
      [{ id := "rq9", userId := "w1", amount := 500, status := .REJECTED, createdAt := "t0" }] }

def jobJ1 : Job :=
  { id := "j1", title := "Setup crew", date := "2026-01-01", time := "18:00", location := "Hall",
    pay := 100, maxWorkers := 5, enrolledCount := 1, status := .OPEN }

def enrW2 : Enrollment := { id := "e1", userId := "w2", jobId := "j1", enrolledAt := "t0" }

/-- A consistent store: one job with enrolledCount 1 and exactly one
enrollment record (by worker w2) referencing it.  Worker w1 is not
enrolled. -/
def dbOneEnrolled : DB := { emptyDB with jobs := [jobJ1], enrollments := [enrW2] }

/-- A worker row with balance 0. -/
def wRow0 : WorkerRow :=
  { id := "w4", name := "Ravi", email := "w4@crewx.io", password := none, phone := none,
    role := some "WORKER", balance := some 0, qr_code := none, age := none, experience := none }

def dbZeroBalance : DB := { emptyDB with workers := [wRow0] }

/-- An account with every optional field unset. -/
def u9 : User :=
  { id := "u9", name := "Lena", email := "l9@crewx.io", password := none, phone := none,
    role := .WORKER, balance := 0, qrCode := none, age := none, experience := none }

/-- A second worker row, used to observe that deletion keeps unrelated
records. -/
def wRow6 : WorkerRow :=
  { id := "w6", name := "Mona", email := "w6@crewx.io", password := none, phone := none,
    role := some "WORKER", balance := some 70, qr_code := none, age := none, experience := none }

def notifW6 : AppNotification :=
  { id := "n6", user_id := "w6", title := "New Event Posted", message := "m", is_read := false }

/-- Store for the deletion scenario: worker w1 owns an enrollment, a payout
request and a notification; worker w6 owns a notification. -/
def dbDeletion : DB :=
  { workers := [wRow500, wRow6]
    jobs := [jobJ1]
    enrollments := [{ id := "e5", userId := "w1", jobId := "j1", enrolledAt := "t0" }]
    withdrawals := [{ id := "rq5", userId := "w1", amount := 10, status := .PENDING, createdAt := "t0" }]
    notifications := [{ id := "n5", user_id := "w1", title := "Reminder", message := "m", is_read := false }, notifW6] }

/-!
Claim theorems.
-/

/-- C1: For a worker whose balance is 500, a payout request of 500 inserts
a PENDING request of amount 500 and zeroes the balance; a subsequent admin
rejection sets the request to REJECTED and restores the balance to 500.
Both request paths are exercised: the App.tsx withdrawal flow with amount
500, and the part_000 handleRequestPayout, which requests the whole
balance; the rejection is App.tsx handleRejectWithdrawal. -/
theorem requestPayout_then_reject_scenario :
    (run [Op.withdraw "w1" "rq1" "t1" 500] dbScenarioB).withdrawals =
        [{ id := "rq1", userId := "w1", amount := 500, status := .PENDING, createdAt := "t1" }]
    ∧ (run [Op.withdraw "w1" "rq1" "t1" 500] dbScenarioB).workers.map (fun r => r.balance) = [some 0]
    ∧ (run [Op.withdraw "w1" "rq1" "t1" 500, Op.rejectW "rq1"] dbScenarioB).withdrawals.map
        (fun w => w.status) = [.REJECTED]
    ∧ (run [Op.withdraw "w1" "rq1" "t1" 500, Op.rejectW "rq1"] dbScenarioB).withdrawals.map
        (fun w => w.amount) = [500]
    ∧ (run [Op.withdraw "w1" "rq1" "t1" 500, Op.rejectW "rq1"] dbScenarioB).workers.map
        (fun r => r.balance) = [some 500]
    ∧ (run [Op.requestPayout "w1" "rq2" "t2"] dbScenarioB).withdrawals =
        [{ id := "rq2", userId := "w1", amount := 500, status := .PENDING, createdAt := "t2" }]
    ∧ (run [Op.requestPayout "w1" "rq2" "t2"] dbScenarioB).workers.map (fun r => r.balance) = [some 0]
    ∧ (run [Op.requestPayout "w1" "rq2" "t2", Op.rejectW "rq2"] dbScenarioB).withdrawals.map
        (fun w => w.status) = [.REJECTED]
    ∧ (run [Op.requestPayout "w1" "rq2" "t2", Op.rejectW "rq2"] dbScenarioB).workers.map
        (fun r => r.balance) = [some 500] := by decide

/-- C2: The claim says a resolve attempt on a non-PENDING request fails and
leaves the request and the worker balance unchanged.  The code has no such
precondition: evaluating handleRejectWithdrawal on an already-REJECTED
request of amount 500 succeeds and credits the amount again, moving the
worker balance from 500 to 1000. -/
theorem resolve_nonPending_double_credits :
    dbResolved.workers.map (fun r => r.balance) = [some 500]
    ∧ dbResolved.withdrawals.map (fun w => w.status) = [.REJECTED]
    ∧ (run [Op.rejectW "rq9"] dbResolved).workers.map (fun r => r.balance) = [some 1000]
    ∧ (run [Op.rejectW "rq9"] dbResolved).withdrawals.map (fun w => w.status) = [.REJECTED] := by
  decide

/-- C3 counterexample: from a consistent store (job j1 has enrolledCount 1
and one enrollment record), the bookkeeping operation handleUnenroll for a
pair with no enrollment record deletes nothing yet decrements the stored
count, so the reconciliation invariant fails at a reachable state. -/
theorem enrolledCount_invariant_fails :
    AtMostOne dbOneEnrolled ∧ CountsMatch dbOneEnrolled
    ∧ ¬ CountsMatch (run [Op.unenrollA "w1" "j1"] dbOneEnrolled)
    ∧ (run [Op.unenrollA "w1" "j1"] dbOneEnrolled).enrollments = dbOneEnrolled.enrollments
    ∧ (run [Op.unenrollA "w1" "j1"] dbOneEnrolled).jobs.map (fun j => j.enrolledCount) = [0] := by
  decide

/-- C3 amended: the reconciliation invariant enrolledCount = number of
enrollment records holds at every state reachable by the bookkeeping
operations, provided every cancel operation in the trace targets a pair
that is enrolled at that point (which is what the UI enforces by only
offering cancellation on enrolled jobs). -/
theorem enrolledCount_matches_on_guarded_traces (db0 : DB) (ops : List Op)
    (hA : AtMostOne db0) (hC : CountsMatch db0) (hok : okTrace ops db0 = true) :
    CountsMatch (run ops db0) :=
  run_countsMatch ops db0 hA hC hok

/-- Witness for C3 amended: a guarded trace (an enroll by w3, then a cancel
by the enrolled worker w2) keeps the counts reconciled. -/
theorem enrolledCount_matches_on_guarded_traces_witness :
    CountsMatch (run [Op.enrollConfirm "w3" "e2" "t2" "j1", Op.unenrollA "w2" "j1"] dbOneEnrolled) :=
  enrolledCount_matches_on_guarded_traces dbOneEnrolled
    [Op.enrollConfirm "w3" "e2" "t2" "j1", Op.unenrollA "w2" "j1"]
    (by decide) (by decide) (by decide)

/-- C4 counterexample: the manual payment operation carries no sign check,
so recording a manual payment of -100 for a worker with balance 0 drives
the balance to -100, violating balance non-negativity. -/
theorem negative_manual_payment_breaks_balance :
    BalancesNonneg dbZeroBalance
    ∧ ¬ BalancesNonneg (run [Op.adminPay "w4" (-100)] dbZeroBalance)
    ∧ (run [Op.adminPay "w4" (-100)] dbZeroBalance).workers.map (fun r => r.balance) =
        [some (-100)] := by
  decide

/-- C4 amended: starting from a store with non-negative balances and
request amounts, every sequence of bookkeeping operations keeps all worker
balances non-negative, provided every manual payment in the sequence has a
non-negative amount (the code never checks this sign). -/
theorem balances_nonneg_under_nonneg_manual_pays (db0 : DB) (ops : List Op)
    (hb : BalancesNonneg db0) (hw : WAmountsNonneg db0) (hp : paysOk ops = true) :
    BalancesNonneg (run ops db0) :=
  (run_money ops db0 hb hw hp).1

/-- Witness for C4 amended: a withdrawal of 200 followed by a manual
payment of 50 keeps the balance non-negative. -/
theorem balances_nonneg_under_nonneg_manual_pays_witness :
    BalancesNonneg (run [Op.withdraw "w1" "rw" "t" 200, Op.adminPay "w1" 50] dbScenarioB) :=
  balances_nonneg_under_nonneg_manual_pays dbScenarioB
    [Op.withdraw "w1" "rw" "t" 200, Op.adminPay "w1" 50] (by decide) (by decide) (by decide)

/-- C5 counterexample: calling handleUnenroll for the pair (w1, j1), which
has no enrollment record, deletes nothing but still changes the stored
enrolledCount of j1 from 1 to 0, so the call is not a no-op as claimed. -/
theorem cancel_without_enrollment_not_noop :
    pairCount dbOneEnrolled "w1" "j1" = 0
    ∧ (run [Op.unenrollA "w1" "j1"] dbOneEnrolled).enrollments = dbOneEnrolled.enrollments
    ∧ dbOneEnrolled.jobs.map (fun j => j.enrolledCount) = [1]
    ∧ (run [Op.unenrollA "w1" "j1"] dbOneEnrolled).jobs.map (fun j => j.enrolledCount) = [0] := by
  decide

/-- C5 amended: cancelling a (worker, job) pair with no existing enrollment
deletes no enrollment record, and in both cancel variants the job count is
written with a floor of zero, so it is never driven below zero, but it is
not left unchanged: handleUnenroll (part_000) writes
max 0 (cached enrolledCount - 1) and cancelEnrollment (part_001) writes
max 0 (number of enrollment records for the job - 1), each a decrement
whenever the previous value was positive. -/
theorem cancel_without_enrollment (db : DB) (uid jid : String) (jstored : Job)
    (hfind : db.jobs.find? (fun j => j.id == jid) = some jstored)
    (h0 : pairCount db uid jid = 0) :
    (handleUnenroll uid jid db).enrollments = db.enrollments
    ∧ (∀ j ∈ (handleUnenroll uid jid db).jobs,
        j ∈ db.jobs ∨ (j.enrolledCount = max 0 (jstored.enrolledCount - 1) ∧ 0 ≤ j.enrolledCount))
    ∧ (cancelEnrollment uid jid db).enrollments = db.enrollments
    ∧ (∀ j ∈ (cancelEnrollment uid jid db).jobs,
        j ∈ db.jobs ∨ (j.enrolledCount = max 0 ((jobCount db.enrollments jid : Int) - 1)
          ∧ 0 ≤ j.enrolledCount)) := by
  have hdel := delete_eq_self_of_pcL_zero db.enrollments uid jid h0
  refine ⟨?_, ?_, ?_, ?_⟩
  · unfold handleUnenroll
    rw [hfind]
    simp only [updateJob_enrollments, deleteEnrollment_enrollments]
    exact hdel
  · unfold handleUnenroll
    rw [hfind]
    intro j hj
    unfold updateJob at hj
    simp only [deleteEnrollment_jobs] at hj
    rcases List.mem_map.mp hj with ⟨j0, hj0, heq⟩
    by_cases hid : (j0.id == jid) = true
    · rw [if_pos hid] at heq
      subst heq
      right
      constructor
      · rfl
      · exact le_max_left 0 _
    · rw [if_neg hid] at heq
      subst heq
      left
      exact hj0
  · unfold cancelEnrollment
    split
    · simp only [deleteEnrollment_enrollments]
      exact hdel
    · simp only [updateJob_enrollments, deleteEnrollment_enrollments]
      exact hdel
  · unfold cancelEnrollment
    rw [hfind]
    intro j hj
    unfold updateJob at hj
    simp only [deleteEnrollment_jobs] at hj
    rcases List.mem_map.mp hj with ⟨j0, hj0, heq⟩
    by_cases hid : (j0.id == jid) = true
    · rw [if_pos hid] at heq
      subst heq
      right
      constructor
      · rfl
      · exact le_max_left 0 _
    · rw [if_neg hid] at heq
      subst heq
      left
      exact hj0

/-- Witness for C5 amended: for the concrete store with one enrollment by
w2, cancelling the non-enrolled pair (w1, j1) leaves the enrollment records
of both cancel variants unchanged. -/
theorem cancel_without_enrollment_witness :
    (handleUnenroll "w1" "j1" dbOneEnrolled).enrollments = dbOneEnrolled.enrollments
    ∧ (cancelEnrollment "w1" "j1" dbOneEnrolled).enrollments = dbOneEnrolled.enrollments :=
  ⟨(cancel_without_enrollment dbOneEnrolled "w1" "j1" jobJ1 (by decide) (by decide)).1,
   (cancel_without_enrollment dbOneEnrolled "w1" "j1" jobJ1 (by decide) (by decide)).2.2.1⟩

/-- C6: starting from any store in which each (worker, job) pair has at
most one enrollment record, every sequence of bookkeeping operations keeps
at most one enrollment record per pair: inserts are guarded by the
composite unique constraint of the enrollments table (a duplicate insert
fails and the handler aborts), and the App.tsx enroll path additionally
checks the store and cancels instead of enrolling twice. -/
theorem at_most_one_enrollment_per_pair (db0 : DB) (ops : List Op) (uid jid : String)
    (h : AtMostOne db0) : pairCount (run ops db0) uid jid ≤ 1 :=
  pcL_le_one_of_atMostOneL _ uid jid (run_atMostOne ops db0 h)

/-- Witness for C6: after an enroll attempt by the already-enrolled worker
w2 (both variants) and a fresh enroll by w3, the pair counts stay at most
one. -/
theorem at_most_one_enrollment_per_pair_witness :
    pairCount (run [Op.enrollA "w2" "e7" "t7" "j1", Op.enrollB "w2" "e8" "t8" "j1",
      Op.enrollConfirm "w3" "e9" "t9" "j1"] dbOneEnrolled) "w2" "j1" ≤ 1 :=
  at_most_one_enrollment_per_pair dbOneEnrolled
    [Op.enrollA "w2" "e7" "t7" "j1", Op.enrollB "w2" "e8" "t8" "j1",
      Op.enrollConfirm "w3" "e9" "t9" "j1"] "w2" "j1" (by decide)

/-- C7: the QR upload decision fails closed.  validateQrWithAI accepts
exactly the replies that carry text whose trim+uppercase equals VALID, and
service failures or absent text are rejections; handleQrUpload writes the
qrCode column exactly when the reply is accepted and otherwise leaves the
store unchanged.  The App.tsx path processAndUploadQR behaves the same with
the token YES. -/
theorem qr_upload_fails_closed (uid data : String) (reply : Except Unit (Option String))
    (db : DB) :
    (validateQrWithAI reply = true ↔
      ∃ t, reply = .ok (some t) ∧ toUpperStr (trimStr t) = "VALID")
    ∧ (validateQrWithAI reply = false → handleQrUpload uid data reply db = db)
    ∧ (validateQrWithAI reply = true →
        handleQrUpload uid data reply db = updateUser uid { qrCode := some data } db)
    ∧ (acceptsYes reply = true ↔
      ∃ t, reply = .ok (some t) ∧ toUpperStr (trimStr t) = "YES")
    ∧ (acceptsYes reply = false → processAndUploadQR uid data reply db = db)
    ∧ (acceptsYes reply = true →
        processAndUploadQR uid data reply db = updateUser uid { qrCode := some data } db) := by
  refine ⟨?_, ?_, ?_, ?_, ?_, ?_⟩
  · cases reply with
    | error e => simp [validateQrWithAI]
    | ok r =>
      cases r with
      | none => simp [validateQrWithAI]
      | some t => simp [validateQrWithAI]
  · intro hf
    unfold handleQrUpload
    rw [hf]
    rfl
  · intro ht
    unfold handleQrUpload
    rw [ht]
    rfl
  · cases reply with
    | error e => simp [acceptsYes]
    | ok r =>
      cases r with
      | none => simp [acceptsYes]
      | some t => simp [acceptsYes]
  · intro hf
    cases reply with
    | error e => rfl
    | ok r =>
      cases r with
      | none => rfl
      | some t =>
        simp only [acceptsYes] at hf
        simp [processAndUploadQR, hf]
  · intro ht
    cases reply with
    | error e => exact absurd ht (by simp [acceptsYes])
    | ok r =>
      cases r with
      | none => exact absurd ht (by simp [acceptsYes])
      | some t =>
        simp only [acceptsYes] at ht
        simp [processAndUploadQR, ht]

/-- Witness for C7: an accepted reply (text trimming and upper-casing to
VALID, resp. YES) updates the qrCode column; an errored call and a
non-matching reply leave the store unchanged. -/
theorem qr_upload_fails_closed_witness :
    handleQrUpload "w1" "qr-data" (Except.ok (some " valid ")) dbScenarioB =
        updateUser "w1" { qrCode := some "qr-data" } dbScenarioB
    ∧ handleQrUpload "w1" "qr-data" (Except.error ()) dbScenarioB = dbScenarioB
    ∧ processAndUploadQR "w1" "qr-data" (Except.ok (some "yes")) dbScenarioB =
        updateUser "w1" { qrCode := some "qr-data" } dbScenarioB
    ∧ processAndUploadQR "w1" "qr-data" (Except.ok (some "NO")) dbScenarioB = dbScenarioB :=
  ⟨(qr_upload_fails_closed "w1" "qr-data" (Except.ok (some " valid ")) dbScenarioB).2.2.1 (by decide),
   (qr_upload_fails_closed "w1" "qr-data" (Except.error ()) dbScenarioB).2.1 (by decide),
   (qr_upload_fails_closed "w1" "qr-data" (Except.ok (some "yes")) dbScenarioB).2.2.2.2.2 (by decide),
   (qr_upload_fails_closed "w1" "qr-data" (Except.ok (some "NO")) dbScenarioB).2.2.2.2.1 (by decide)⟩

/-- C8: deleting a worker removes the worker row and every enrollment,
payout request and notification whose user id references it, and keeps
every record of other users as well as the jobs table. -/
theorem deleteUser_cascades (db : DB) (uid : String) :
    (∀ r ∈ (deleteUser uid db).workers, ¬ r.id = uid)
    ∧ (∀ e ∈ (deleteUser uid db).enrollments, ¬ e.userId = uid)
    ∧ (∀ w ∈ (deleteUser uid db).withdrawals, ¬ w.userId = uid)
    ∧ (∀ n ∈ (deleteUser uid db).notifications, ¬ n.user_id = uid)
    ∧ (∀ r ∈ db.workers, ¬ r.id = uid → r ∈ (deleteUser uid db).workers)
    ∧ (∀ e ∈ db.enrollments, ¬ e.userId = uid → e ∈ (deleteUser uid db).enrollments)
    ∧ (∀ w ∈ db.withdrawals, ¬ w.userId = uid → w ∈ (deleteUser uid db).withdrawals)
    ∧ (∀ n ∈ db.notifications, ¬ n.user_id = uid → n ∈ (deleteUser uid db).notifications)
    ∧ (deleteUser uid db).jobs = db.jobs := by
  refine ⟨?_, ?_, ?_, ?_, ?_, ?_, ?_, ?_, rfl⟩
  · intro r hr
    have := (List.mem_filter.mp hr).2
    simpa using this
  · intro e he
    have := (List.mem_filter.mp he).2
    simpa using this
  · intro w hw
    have := (List.mem_filter.mp hw).2
    simpa using this
  · intro n hn
    have := (List.mem_filter.mp hn).2
    simpa using this
  · intro r hr hne
    exact List.mem_filter.mpr ⟨hr, by simpa using hne⟩
  · intro e he hne
    exact List.mem_filter.mpr ⟨he, by simpa using hne⟩
  · intro w hw hne
    exact List.mem_filter.mpr ⟨hw, by simpa using hne⟩
  · intro n hn hne
    exact List.mem_filter.mpr ⟨hn, by simpa using hne⟩

/-- Witness for C8: deleting w1 from the concrete store keeps the w6 row
and the w6 notification. -/
theorem deleteUser_cascades_witness :
    wRow6 ∈ (deleteUser "w1" dbDeletion).workers
    ∧ notifW6 ∈ (deleteUser "w1" dbDeletion).notifications :=
  ⟨(deleteUser_cascades dbDeletion "w1").2.2.2.2.1 wRow6 (by decide) (by decide),
   (deleteUser_cascades dbDeletion "w1").2.2.2.2.2.2.2.1 notifW6 (by decide) (by decide)⟩

/-- C9 counterexample: saving the account u9, whose phone is unset, and
reading it back by email yields an account whose phone is the empty string
rather than unset: mapUser substitutes "" for a missing phone. -/
theorem unset_phone_read_back_as_empty :
    u9.phone = none
    ∧ (getUserByEmail "l9@crewx.io" (saveUser u9 emptyDB)).map (fun x => x.phone) =
        some (some "") := by
  decide

/-- C9 amended: the save-then-read round trip through the workers table
preserves unset password, qrCode, age and experience (they read back as
unset), while an unset phone reads back as the empty string because the
mapUser read path applies (u.phone || ""). -/
theorem account_roundtrip_optional_fields (u : User) :
    getUserByEmail u.email (saveUser u emptyDB) = some (mapUser (saveUserRow u))
    ∧ (mapUser (saveUserRow u)).password = u.password
    ∧ (mapUser (saveUserRow u)).qrCode = u.qrCode
    ∧ (mapUser (saveUserRow u)).age = u.age
    ∧ (mapUser (saveUserRow u)).experience = u.experience
    ∧ (mapUser (saveUserRow u)).phone = some (u.phone.getD "") := by
  refine ⟨?_, rfl, rfl, rfl, rfl, rfl⟩
  unfold getUserByEmail saveUser emptyDB
  simp [saveUserRow, List.find?]

/-- C10: db.updateUser writes only the columns present in the updates
object: the id is never written, and every field whose update is absent
keeps its previous value; rows of other workers are untouched. -/
theorem updateUser_frame (up : UserUpdates) (r : WorkerRow) (db : DB) (uid : String) :
    (applyUserUpdates up r).id = r.id
    ∧ (up.name = none → (applyUserUpdates up r).name = r.name)
    ∧ (up.email = none → (applyUserUpdates up r).email = r.email)
    ∧ (up.phone = none → (applyUserUpdates up r).phone = r.phone)
    ∧ (up.balance = none → (applyUserUpdates up r).balance = r.balance)
    ∧ (up.qrCode = none → (applyUserUpdates up r).qr_code = r.qr_code)
    ∧ (up.age = none → (applyUserUpdates up r).age = r.age)
    ∧ (up.experience = none → (applyUserUpdates up r).experience = r.experience)
    ∧ (up.role = none → (applyUserUpdates up r).role = r.role)
    ∧ (up.password = none → (applyUserUpdates up r).password = r.password)
    ∧ (r ∈ db.workers → ¬ r.id = uid → r ∈ (updateUser uid up db).workers) := by
  refine ⟨rfl, ?_, ?_, ?_, ?_, ?_, ?_, ?_, ?_, ?_, ?_⟩
  · intro h
    simp [applyUserUpdates, h]
  · intro h
    simp [applyUserUpdates, h]
  · intro h
    simp [applyUserUpdates, h]
  · intro h
    simp [applyUserUpdates, h]
  · intro h
    simp [applyUserUpdates, h]
  · intro h
    simp [applyUserUpdates, h]
  · intro h
    simp [applyUserUpdates, h]
  · intro h
    simp [applyUserUpdates, h]
  · intro h
    simp [applyUserUpdates, h]
  · intro hm hne
    have hfalse : (r.id == uid) = false := beq_eq_false_iff_ne.mpr hne
    have himg := List.mem_map_of_mem (f := fun r0 => if r0.id == uid then applyUserUpdates up r0 else r0) hm
    unfold updateUser
    simpa [hfalse] using himg

/-- Witness for C10: an update carrying only a name leaves the balance and
id of the matching row unchanged, and leaves the row of another worker in
place. -/
theorem updateUser_frame_witness :
    (applyUserUpdates { name := some "New Name" } wRow500).balance = wRow500.balance
    ∧ (applyUserUpdates { name := some "New Name" } wRow500).id = wRow500.id
    ∧ wRow500 ∈ (updateUser "w6" { name := some "New Name" } dbDeletion).workers :=
  ⟨(updateUser_frame { name := some "New Name" } wRow500 dbDeletion "w6").2.2.2.2.1 rfl,
   (updateUser_frame { name := some "New Name" } wRow500 dbDeletion "w6").1,
   (updateUser_frame { name := some "New Name" } wRow500 dbDeletion "w6").2.2.2.2.2.2.2.2.2.2
     (by decide) (by decide)⟩

end CrewX
